import Mathlib

/-!
Shallow embedding of the temporal normalization, bucketing, filtering and
aggregation engine of the Radiology-App repository.

The embedding follows the two page components that contain the engine:
the workflow page (`extractTimeFromString`, `processTimestamps`,
`filteredData`, the peak-hour reduce) and the staff-productivity page
(`isTimeInRange`, the date-range filter of `processData`, and the
modality percentage aggregation).

Modelling conventions:
* JavaScript strings are Lean `String`s; code-unit comparison is modelled
  by code-point comparison on `String.data` (faithful on ASCII data).
* A possibly-absent (`undefined`) field is an `Option String`; the
  JavaScript `x || dflt` defaulting idiom (which also replaces the empty
  string) is `jsOr`.
* `Number(s)` is modelled on the strings this code feeds it: `""`
  evaluates to `0`, a string of decimal digits to its value, anything
  else to NaN; NaN is `Option.none` and every comparison against it is
  false, exactly as in JavaScript.
* A thrown exception is `Option.none` at the function that can throw.
-/

namespace Radiology

/-- AM/PM marker captured by the optional third regex group; `nomark`
is the undefined capture (no marker in the string). -/
inductive Marker
  | am
  | pm
  | nomark
deriving DecidableEq, Repr

/-- Numeric value of a decimal digit character. -/
def digitVal (c : Char) : Nat := c.toNat - 48

/-- Value of a list of decimal digit characters (parseInt base 10 on an
all-digit string). -/
def digitsToNat (cs : List Char) : Nat := cs.foldl (fun n c => n * 10 + digitVal c) 0

/-- The optional `\s*(AM|PM)?` tail of the regex, case-insensitive:
skip whitespace, then read a two-letter AM/PM marker if present. -/
def readMarker (cs : List Char) : Marker :=
  match cs.dropWhile Char.isWhitespace with
  | a :: m :: _ =>
    if (a = 'A' ∨ a = 'a') ∧ (m = 'M' ∨ m = 'm') then Marker.am
    else if (a = 'P' ∨ a = 'p') ∧ (m = 'M' ∨ m = 'm') then Marker.pm
    else Marker.nomark
  | _ => Marker.nomark

/-- Attempt of the regex `(\d{1,2}):(\d{2})\s*(AM|PM)?` at the current
position with a two-digit hour (the greedy `\d{1,2}` tries two digits
first). Returns raw hour, minute and marker. -/
def match2 : List Char → Option (Nat × Nat × Marker)
  | d1 :: d2 :: ':' :: m1 :: m2 :: rest =>
    if d1.isDigit ∧ d2.isDigit ∧ m1.isDigit ∧ m2.isDigit then
      some (digitVal d1 * 10 + digitVal d2, digitVal m1 * 10 + digitVal m2, readMarker rest)
    else Option.none
  | _ => Option.none

/-- Attempt of the same regex at the current position with a one-digit
hour (the backtracking alternative of `\d{1,2}`). -/
def match1 : List Char → Option (Nat × Nat × Marker)
  | d1 :: ':' :: m1 :: m2 :: rest =>
    if d1.isDigit ∧ m1.isDigit ∧ m2.isDigit then
      some (digitVal d1, digitVal m1 * 10 + digitVal m2, readMarker rest)
    else Option.none
  | _ => Option.none

/-- Regex attempt at one position: two-digit hour first, then one-digit. -/
def matchAt (cs : List Char) : Option (Nat × Nat × Marker) :=
  (match2 cs).orElse (fun _ => match1 cs)

/-- `String.prototype.match`: the regex engine scans positions left to
right and the first position with a successful match wins. -/
def firstMatch : List Char → Option (Nat × Nat × Marker)
  | [] => Option.none
  | c :: cs => (matchAt (c :: cs)).orElse (fun _ => firstMatch cs)

/-- Result of the time parser: 24-hour-adjusted hour, raw minute, and
the marker that was seen. -/
structure TimeInfo where
  hour : Nat
  minute : Nat
  period : Marker
deriving DecidableEq, Repr

/-- `extractTimeFromString` of both pages: first regex match anywhere in
the string, then the sequential AM/PM adjustment
(`if (period === 'PM' && hour !== 12) hour += 12;`
 `if (period === 'AM' && hour === 12) hour = 0;`).
The workflow page's copy returns `{hour, period}` and the
staff-productivity copy returns `{hour, minute}`; this embedding carries
all three fields for both. Hours are natural numbers, so the
`hour < 0` half of the callers' range check is vacuous. -/
def extractTimeFromString (timeStr : String) : Option TimeInfo :=
  match firstMatch timeStr.data with
  | Option.none => Option.none
  | some (h, m, p) =>
    let h1 := if p = Marker.pm ∧ h ≠ 12 then h + 12 else h
    let h2 := if p = Marker.am ∧ h1 = 12 then 0 else h1
    some ⟨h2, m, p⟩

example : (extractTimeFromString "13:45").map TimeInfo.hour = some 13 := by decide
example : (extractTimeFromString "12:00 AM").map TimeInfo.hour = some 0 := by decide
example : (extractTimeFromString "12:00 PM").map TimeInfo.hour = some 12 := by decide
example : (extractTimeFromString "1:00 PM").map TimeInfo.hour = some 13 := by decide
example : (extractTimeFromString "11:59 PM").map TimeInfo.hour = some 23 := by decide
example : (extractTimeFromString "at 7:30pm sharp").map TimeInfo.hour = some 19 := by decide
example : extractTimeFromString "no time here" = Option.none := by decide
example : (extractTimeFromString "123:45").map TimeInfo.hour = some 23 := by decide

/-- One raw row handed to the engine by the extraction collaborators.
A missing key is `Option.none`; the recognized keys are the ones the
code reads (`Date`, `Time`, `Patient ID`, `Patient Name`, `Mod.`,
`Description`, `Status`, `Accession`, `Body Part`, `Report Signed By`). -/
structure Row where
  date : Option String := Option.none
  time : Option String := Option.none
  patientId : Option String := Option.none
  patientName : Option String := Option.none
  modality : Option String := Option.none
  description : Option String := Option.none
  status : Option String := Option.none
  accession : Option String := Option.none
  bodyPart : Option String := Option.none
  reportSignedBy : Option String := Option.none
deriving DecidableEq, Repr

/-- JavaScript `v || dflt` on a possibly-absent string field: both
`undefined` and the empty string fall back to the default. -/
def jsOr (v : Option String) (dflt : String) : String :=
  match v with
  | Option.none => dflt
  | some s => if s = "" then dflt else s

/-- JavaScript `String.prototype.trim`. -/
def jsTrim (s : String) : String :=
  String.mk (((s.data.dropWhile Char.isWhitespace).reverse.dropWhile Char.isWhitespace).reverse)

/-- The `EntryDetail` record built by `processTimestamps` for each row
that passes time parsing. -/
structure EntryDetail where
  timestamp : String
  date : String
  patientId : String
  patientName : String
  modality : String
  description : String
  status : String
  accession : String
  bodyPart : String
  reportSignedBy : String
deriving DecidableEq, Repr

/-- One of the 24 `HourlyData` buckets of the workflow view. -/
structure HourlyData where
  hour : String
  hour12 : String
  count : Nat
  entries : List EntryDetail
deriving DecidableEq, Repr

/-- The per-row body of `processTimestamps`: trim the time field, drop
the row when the field is absent or empty, when no time pattern is
found, or when the adjusted hour is outside [0,23]; otherwise emit the
bucket hour and the populated entry. (`timeInfo.hour < 0` of the source
guard cannot fire on natural numbers.) -/
def normalizeRow (row : Row) : Option (Nat × EntryDetail) :=
  match row.time with
  | Option.none => Option.none
  | some t =>
    let timeStr := jsTrim t
    if timeStr = "" then Option.none
    else
      match extractTimeFromString timeStr with
      | Option.none => Option.none
      | some ti =>
        if ti.hour > 23 then Option.none
        else
          some (ti.hour,
            { date := jsOr row.date "N/A"
              timestamp := jsOr row.date "N/A" ++ " " ++ timeStr
              patientId := jsOr row.patientId "N/A"
              patientName := jsOr row.patientName "N/A"
              modality := jsOr row.modality "N/A"
              description := jsOr row.description "N/A"
              status := jsOr row.status "N/A"
              accession := jsOr row.accession "N/A"
              bodyPart := jsOr row.bodyPart "N/A"
              reportSignedBy := (row.reportSignedBy).getD "" })

/-- `padStart(2, '0')`. -/
def padStart2 (s : String) : String := if s.length < 2 then "0" ++ s else s

/-- `formatHour`: the `"HH:00"` 24-hour label and the `"hh:00 AM/PM"`
12-hour label of a bucket. -/
def formatHour (h : Nat) : String × String :=
  let hour24 := padStart2 (toString h)
  let period := if h < 12 then "AM" else "PM"
  let hour12 := padStart2 (if h = 0 then "12" else if h > 12 then toString (h - 12) else toString h)
  (hour24 ++ ":00", hour12 ++ ":00 " ++ period)

/-- Code-unit comparison `a <= b` of JavaScript strings
(`localeCompare` is modelled by code-point order, faithful on ASCII). -/
def charListLe : List Char → List Char → Bool
  | [], _ => true
  | _ :: _, [] => false
  | a :: as, b :: bs =>
    if a.toNat < b.toNat then true
    else if b.toNat < a.toNat then false
    else charListLe as bs

/-- String order used for the per-bucket timestamp sort and the
workflow date-range comparison. -/
def strLe (a b : String) : Bool := charListLe a.data b.data

/-- Insert an entry into a timestamp-sorted list. -/
def insertTS (e : EntryDetail) : List EntryDetail → List EntryDetail
  | [] => [e]
  | x :: xs => if strLe e.timestamp x.timestamp then e :: x :: xs else x :: insertTS e xs

/-- The ascending sort by the raw `timestamp` string applied to each
bucket's entries. -/
def sortTS : List EntryDetail → List EntryDetail
  | [] => []
  | x :: xs => insertTS x (sortTS xs)

/-- `processTimestamps`: initialize 24 empty buckets, place every row
that `normalizeRow` accepts into its hour's bucket (count and entry),
emit the buckets in ascending hour order with their entries sorted by
timestamp, together with the `validEntries` scalar. -/
def processTimestamps (rows : List Row) : List HourlyData × Nat :=
  let recs := rows.filterMap normalizeRow
  ((List.range 24).map (fun h =>
    let es := (recs.filter (fun r => r.1 == h)).map Prod.snd
    { hour := (formatHour h).1
      hour12 := (formatHour h).2
      count := es.length
      entries := sortTS es }), recs.length)

/-- The filter state of a page: three categorical selections, the date
range and the time range, with the page's initial values as defaults. -/
structure Criteria where
  selectedModalities : List String := []
  selectedStatuses : List String := []
  selectedSigners : List String := []
  dateRange : String × String := ("", "")
  timeRange : String × String := ("00:00", "23:59")
deriving DecidableEq, Repr

/-- Split a character list on a separator character, JavaScript
`String.prototype.split` style (an empty string yields one empty field). -/
def splitOnChar (sep : Char) : List Char → List (List Char)
  | [] => [[]]
  | c :: cs =>
    let r := splitOnChar sep cs
    if c = sep then [] :: r
    else
      match r with
      | f :: rest => (c :: f) :: rest
      | [] => [[c]]

/-- JavaScript `Number` on the strings this engine feeds it: `""` is 0,
a digit string is its value, anything else is NaN (`Option.none`). -/
def jsNum (cs : List Char) : Option Nat :=
  if cs.isEmpty then some 0
  else if cs.all Char.isDigit then some (digitsToNat cs) else Option.none

/-- `Number(label.split(':')[0])`: the hour read off a `"HH:MM"`-shaped
string. -/
def labelHour (s : String) : Option Nat :=
  jsNum ((splitOnChar ':' s.data).headD [])

/-- `hourNum >= startHour && hourNum <= endHour` of `filteredData`;
any NaN operand makes the comparison false. -/
def timeRangeMatch (c : Criteria) (hourLabel : String) : Bool :=
  match labelHour hourLabel, labelHour c.timeRange.1, labelHour c.timeRange.2 with
  | some h, some s, some e => decide (s ≤ h ∧ h ≤ e)
  | _, _, _ => false

/-- The per-entry predicate of `filteredData`: categorical pass-through
on an empty selection, signer match additionally requiring a non-empty
signer, and the lexicographic inclusive date range applied only when
both bounds are non-empty. -/
def entryPasses (c : Criteria) (e : EntryDetail) : Bool :=
  let modalityMatch := c.selectedModalities.isEmpty || c.selectedModalities.contains e.modality
  let statusMatch := c.selectedStatuses.isEmpty || c.selectedStatuses.contains e.status
  let signerMatch := c.selectedSigners.isEmpty ||
    (!(e.reportSignedBy == "") && c.selectedSigners.contains e.reportSignedBy)
  let dateMatch := (c.dateRange.1 == "") || (c.dateRange.2 == "") ||
    (strLe c.dateRange.1 e.date && strLe e.date c.dateRange.2)
  modalityMatch && statusMatch && signerMatch && dateMatch

/-- The body of the workflow view's Filter Engine for one bucket: a
bucket whose hour lies outside the time range is zeroed out whole;
otherwise its entries are filtered by `entryPasses` and the count is
recomputed as their number. -/
def filterBucket (c : Criteria) (hd : HourlyData) : HourlyData :=
  if !timeRangeMatch c hd.hour then
    { hd with count := 0, entries := [] }
  else
    let fe := hd.entries.filter (entryPasses c)
    { hd with count := fe.length, entries := fe }

/-- The workflow view's Filter Engine (`filteredData` useMemo): map the
per-bucket filter over the bucket list. -/
def filteredData (c : Criteria) (hourlyData : List HourlyData) : List HourlyData :=
  hourlyData.map (filterBucket c)

/-- `filteredData.reduce((max, curr) => curr.count > max.count ? curr : max)`:
JavaScript `reduce` without an initial value seeds with the first element
and throws on an empty array (`Option.none`). -/
def peakBucket : List HourlyData → Option HourlyData
  | [] => Option.none
  | x :: xs => some (xs.foldl (fun mx cur => if mx.count < cur.count then cur else mx) x)

/-- The workflow page's peak-hour display (24-hour branch):
`filteredData.length > 0 ? filteredData.reduce(...).hour : 'N/A'`. -/
def peakHourDisplay (hd : List HourlyData) : String :=
  match peakBucket hd with
  | some b => b.hour
  | Option.none => "N/A"

example :
    (processTimestamps [{ time := some " 09:15 AM ", modality := some "CT" }]).2 = 1 := by decide
example :
    ((processTimestamps [{ time := some "09:15 AM" }]).1.map HourlyData.count).sum = 1 := by decide
example : peakHourDisplay [] = "N/A" := by decide

/-- Gregorian leap year. -/
def isLeap (y : Nat) : Bool := (y % 4 == 0 && y % 100 != 0) || (y % 400 == 0)

/-- Days in a month, as validated by the date-fns parser. -/
def daysInMonth (y m : Nat) : Nat :=
  if m = 2 then (if isLeap y then 29 else 28)
  else if m = 4 ∨ m = 6 ∨ m = 9 ∨ m = 11 then 30
  else 31

/-- Calendar validity of a (year, month, day) triple. -/
def validYMD (y m d : Nat) : Bool :=
  1 ≤ m && m ≤ 12 && 1 ≤ d && d ≤ daysInMonth y m

/-- One numeric field of a date pattern: non-empty, at most `maxLen`
digits, all decimal. -/
def numField (cs : List Char) (maxLen : Nat) : Option Nat :=
  if 0 < cs.length ∧ cs.length ≤ maxLen ∧ cs.all Char.isDigit = true then
    some (digitsToNat cs)
  else Option.none

/-- date-fns `parse(s, 'yyyy-MM-dd', ...)`, modelled as three
dash-separated numeric fields forming a valid calendar date; an invalid
parse is `Option.none` (the library's Invalid Date). Result is
(year, month, day). -/
def parseYMD (s : String) : Option (Nat × Nat × Nat) :=
  match splitOnChar '-' s.data with
  | [ys, ms, ds] =>
    match numField ys 4, numField ms 2, numField ds 2 with
    | some y, some m, some d => if validYMD y m d then some (y, m, d) else Option.none
    | _, _, _ => Option.none
  | _ => Option.none

/-- date-fns `parse(s, 'MM/dd/yyyy', ...)`, modelled as three
slash-separated numeric fields forming a valid calendar date. Result is
normalized to (year, month, day). -/
def parseMDY (s : String) : Option (Nat × Nat × Nat) :=
  match splitOnChar '/' s.data with
  | [ms, ds, ys] =>
    match numField ms 2, numField ds 2, numField ys 4 with
    | some m, some d, some y => if validYMD y m d then some (y, m, d) else Option.none
    | _, _, _ => Option.none
  | _ => Option.none

/-- Chronological key of a parsed date: `Date` object comparison. -/
def dateKey (t : Nat × Nat × Nat) : Nat := t.1 * 10000 + t.2.1 * 100 + t.2.2

/-- The date-range branch of the productivity view's row filter: applied
only when both bounds and the row's date are truthy; the bounds are
parsed with `'yyyy-MM-dd'` and the row's date with `'MM/dd/yyyy'`; the
row is rejected exactly when all three parse and the row's date falls
strictly outside the bounds; any invalid parse lets the row through. -/
def prodDateOK (c : Criteria) (date : Option String) : Bool :=
  let ds := c.dateRange.1
  let de := c.dateRange.2
  let d := date.getD ""
  if ds == "" || de == "" || d == "" then true
  else
    match parseYMD ds, parseYMD de, parseMDY d with
    | some s, some e, some cur =>
      !(decide (dateKey cur < dateKey s) || decide (dateKey e < dateKey cur))
    | _, _, _ => true

/-- `Number` applied to the two fields a `"HH:MM"` destructuring reads;
a missing second field or a non-numeric field is NaN, and the
minutes-since-midnight sum is then NaN (`Option.none`). -/
def hmValue (s : String) : Option Nat :=
  match splitOnChar ':' s.data with
  | h :: m :: _ =>
    match jsNum h, jsNum m with
    | some hn, some mn => some (hn * 60 + mn)
    | _, _ => Option.none
  | _ => Option.none

/-- `isTimeInRange` of the productivity view: minute-granular inclusive
range on the parsed time; an unparseable time string is out of range,
and a NaN bound makes both comparisons false. -/
def isTimeInRange (timeStr : String) (start stop : String) : Bool :=
  match extractTimeFromString timeStr with
  | Option.none => false
  | some t =>
    match hmValue start, hmValue stop with
    | some sv, some ev =>
      decide (sv ≤ t.hour * 60 + t.minute ∧ t.hour * 60 + t.minute ≤ ev)
    | _, _ => false

/-- One row of the productivity view's `rows.filter` callback, in source
order: date range, then time range, then the three categorical
dimensions (signer defaulted to `"Unassigned"`). `Option.none` models
the TypeError thrown when the time filter dereferences an absent `Time`
field (caught by the surrounding try/catch, aborting the whole batch). -/
def prodRowPasses (c : Criteria) (row : Row) : Option Bool :=
  if !prodDateOK c row.date then some false
  else
    match row.time with
    | Option.none => Option.none
    | some t =>
      if !isTimeInRange t c.timeRange.1 c.timeRange.2 then some false
      else
        let modality := jsOr row.modality "N/A"
        let status := jsOr row.status "N/A"
        let signer := jsOr row.reportSignedBy "Unassigned"
        if !c.selectedModalities.isEmpty && !c.selectedModalities.contains modality then some false
        else if !c.selectedStatuses.isEmpty && !c.selectedStatuses.contains status then some false
        else if !c.selectedSigners.isEmpty && !c.selectedSigners.contains signer then some false
        else some true

/-- One Modality Aggregate of the productivity view. -/
structure ModalityData where
  modality : String
  count : Nat
  percentage : ℚ
deriving DecidableEq, Repr

/-- The outputs of `processData` the claims are about. -/
structure ProdOutput where
  totalStudies : Nat
  workingDays : Nat
  modalityData : List ModalityData
deriving DecidableEq, Repr

/-- `Map.set(key, (Map.get(key) || 0) + 1)` on a JavaScript `Map`,
which preserves first-insertion order. -/
def bumpCount (key : String) : List (String × Nat) → List (String × Nat)
  | [] => [(key, 1)]
  | (k, n) :: rest => if k == key then (k, n + 1) :: rest else (k, n) :: bumpCount key rest

/-- `Set.add` on a JavaScript `Set`: keep first-insertion order,
ignore duplicates. -/
def addDistinct (s : String) (l : List String) : List String :=
  if l.contains s then l else l ++ [s]

/-- Stable insertion into a descending-by-count list
(`sort((a, b) => b.count - a.count)` is stable). -/
def insertDesc (x : ModalityData) : List ModalityData → List ModalityData
  | [] => [x]
  | y :: ys => if y.count < x.count then x :: y :: ys else y :: insertDesc x ys

/-- Descending stable sort by count. -/
def sortDesc (l : List ModalityData) : List ModalityData :=
  l.foldl (fun acc x => insertDesc x acc) []

/-- The core of the productivity view's `processData`: filter the rows
by `prodRowPasses` (a thrown row aborts the batch, `Option.none`),
count the filtered total, collect distinct truthy dates, accumulate the
per-modality counts in encounter order, and materialize the Modality
Aggregates with `count / total * 100` percentages guarded by
`total > 0`, sorted descending by count. -/
def processData (c : Criteria) (rows : List Row) : Option ProdOutput :=
  match rows.mapM (fun r => (prodRowPasses c r).map (fun b => (r, b))) with
  | Option.none => Option.none
  | some pairs =>
    let filteredRows := (pairs.filter (fun p => p.2)).map Prod.fst
    let total := filteredRows.length
    let dates := filteredRows.foldl (fun acc r =>
      match r.date with
      | some d => if d == "" then acc else addDistinct d acc
      | Option.none => acc) []
    let counts := filteredRows.foldl (fun acc r => bumpCount (jsOr r.modality "N/A") acc) []
    let md := counts.map (fun p =>
      { modality := p.1
        count := p.2
        percentage := if 0 < total then (p.2 : ℚ) / (total : ℚ) * 100 else 0 : ModalityData })
    some { totalStudies := total, workingDays := dates.length, modalityData := sortDesc md }

/-- Modelled from the spec: the date filter exactly as claim C8 words
it — all three of the bounds and the record's date parsed with the same
fixed month/day/year pattern, the record excluded only when its parsed
date lies strictly outside the parsed bounds, any parse failure letting
the record pass. This is the claim's reading, kept for comparison with
`prodDateOK`, the definition translated from the source. -/
def claimC8DatePass (ds de : String) (date : Option String) : Bool :=
  let d := date.getD ""
  if ds == "" || de == "" || d == "" then true
  else
    match parseMDY ds, parseMDY de, parseMDY d with
    | some s, some e, some cur =>
      !(decide (dateKey cur < dateKey s) || decide (dateKey e < dateKey cur))
    | _, _, _ => true

example : parseYMD "2024-01-02" = some (2024, 1, 2) := by decide
example : parseMDY "01/31/2024" = some (2024, 1, 31) := by decide
example : parseMDY "2024-01-02" = Option.none := by decide
example : parseMDY "02/30/2024" = Option.none := by decide
example :
    (processData {} [{ time := some "09:15 AM", modality := some "CT" }]).map
        (fun o => (o.totalStudies, o.workingDays,
          o.modalityData.map (fun m => (m.modality, m.count)))) =
      some (1, 0, [("CT", 1)]) := by decide
example :
    (processData {} [{ modality := some "CT" }]) = Option.none := by decide

/-- The conjunction of every §4.4 predicate of the workflow view for
one record sitting in the bucket labelled `label`: the time range at
bucket-hour granularity together with the per-entry categorical and
date-range predicates. -/
def passesAll (c : Criteria) (label : String) (e : EntryDetail) : Bool :=
  timeRangeMatch c label && entryPasses c e

/-! Helper lemmas. -/

theorem filterBucket_hour (c : Criteria) (b : HourlyData) :
    (filterBucket c b).hour = b.hour := by
  unfold filterBucket
  split <;> rfl

theorem filterBucket_hour12 (c : Criteria) (b : HourlyData) :
    (filterBucket c b).hour12 = b.hour12 := by
  unfold filterBucket
  split <;> rfl

theorem filterBucket_count_entries (c : Criteria) (b : HourlyData) :
    (filterBucket c b).count = (filterBucket c b).entries.length := by
  unfold filterBucket
  split <;> simp

theorem entryPasses_empty (e : EntryDetail) : entryPasses {} e = true := rfl

theorem passesAll_spec (c : Criteria) (label : String) (e : EntryDetail) :
    passesAll c label e = (timeRangeMatch c label && entryPasses c e) := rfl

theorem filterBucket_count_eq (c : Criteria) (b : HourlyData) :
    (filterBucket c b).count = (b.entries.filter (passesAll c b.hour)).length := by
  unfold filterBucket
  by_cases h : timeRangeMatch c b.hour
  · simp only [h, Bool.not_true, Bool.false_eq_true, if_false]
    have : ∀ e ∈ b.entries, passesAll c b.hour e = entryPasses c e := by
      intro e _
      simp [passesAll, h]
    rw [List.filter_congr this]
  · simp only [h, Bool.not_false, if_true]
    have : ∀ e ∈ b.entries, passesAll c b.hour e = false := by
      intro e _
      simp [passesAll, h]
    rw [List.filter_congr this]
    simp

/-! C1. -/

/-- C1: the time parser takes the first `digit{1,2}:digit{2}` match with
optional whitespace-separated case-insensitive AM/PM marker; with no
marker the literal hour is returned unadjusted (24-hour assumption),
a PM marker on an hour other than 12 adds 12, an AM marker on hour 12
yields 0; and concretely "13:45" parses to hour 13, "12:00 AM" to 0,
"12:00 PM" to 12, "1:00 PM" to 13, "11:59 PM" to 23. -/
theorem time_parser_ampm_adjustment :
    (∀ (s : String) (h m : Nat) (mk : Marker), firstMatch s.data = some (h, m, mk) →
      ∃ ti : TimeInfo, extractTimeFromString s = some ti ∧
        (mk = Marker.nomark → ti.hour = h) ∧
        (mk = Marker.pm → h ≠ 12 → ti.hour = h + 12) ∧
        (mk = Marker.am → h = 12 → ti.hour = 0))
    ∧ (extractTimeFromString "13:45").map TimeInfo.hour = some 13
    ∧ (extractTimeFromString "12:00 AM").map TimeInfo.hour = some 0
    ∧ (extractTimeFromString "12:00 PM").map TimeInfo.hour = some 12
    ∧ (extractTimeFromString "1:00 PM").map TimeInfo.hour = some 13
    ∧ (extractTimeFromString "11:59 PM").map TimeInfo.hour = some 23 := by
  refine ⟨?_, by decide, by decide, by decide, by decide, by decide⟩
  intro s h m mk hmatch
  unfold extractTimeFromString
  rw [hmatch]
  refine ⟨_, rfl, ?_, ?_, ?_⟩
  · rintro rfl
    simp
  · rintro rfl h12
    simp [h12]
  · rintro rfl h12
    simp [h12]

/-- Witness for C1 at the concrete input "scan 7:05 pm": the raw match
is hour 7, minute 5, PM marker, and the parser applies the PM rule. -/
theorem time_parser_ampm_adjustment_witness :
    ∃ ti : TimeInfo, extractTimeFromString "scan 7:05 pm" = some ti ∧
      (Marker.pm = Marker.nomark → ti.hour = 7) ∧
      (Marker.pm = Marker.pm → 7 ≠ 12 → ti.hour = 7 + 12) ∧
      (Marker.pm = Marker.am → 7 = 12 → ti.hour = 0) :=
  time_parser_ampm_adjustment.1 "scan 7:05 pm" 7 5 Marker.pm (by decide)

/-! C10. -/

/-- C10: on a 24-bucket input the Filter Engine returns exactly 24
buckets in the same order, and the hour and hour12 labels of every
bucket are unchanged. -/
theorem filter_frame_24_buckets (c : Criteria) (hd : List HourlyData)
    (h24 : hd.length = 24) :
    (filteredData c hd).length = 24 ∧
    (filteredData c hd).map (fun b => b.hour) = hd.map (fun b => b.hour) ∧
    (filteredData c hd).map (fun b => b.hour12) = hd.map (fun b => b.hour12) := by
  refine ⟨by simp [filteredData, h24], ?_, ?_⟩ <;>
    simp [filteredData, List.map_map, Function.comp_def,
      filterBucket_hour, filterBucket_hour12]

/-- Witness for C10: the 24 buckets built from one sample row keep
their length and labels under a modality filter. -/
theorem filter_frame_24_buckets_witness :
    (filteredData { selectedModalities := ["MR"] }
        (processTimestamps [{ time := some "09:15 AM", modality := some "CT" }]).1).length = 24 ∧
    (filteredData { selectedModalities := ["MR"] }
        (processTimestamps [{ time := some "09:15 AM", modality := some "CT" }]).1).map
        (fun b => b.hour) =
      ((processTimestamps [{ time := some "09:15 AM", modality := some "CT" }]).1).map
        (fun b => b.hour) ∧
    (filteredData { selectedModalities := ["MR"] }
        (processTimestamps [{ time := some "09:15 AM", modality := some "CT" }]).1).map
        (fun b => b.hour12) =
      ((processTimestamps [{ time := some "09:15 AM", modality := some "CT" }]).1).map
        (fun b => b.hour12) :=
  filter_frame_24_buckets _ _ (by decide)

/-! C4. -/

theorem filterBucket_empty_id (b : HourlyData)
    (hc : b.count = b.entries.length)
    (hl : ∃ h, labelHour b.hour = some h ∧ h ≤ 23) :
    filterBucket {} b = b := by
  obtain ⟨h, hlab, hle⟩ := hl
  have htm : timeRangeMatch {} b.hour = true := by
    unfold timeRangeMatch
    rw [hlab]
    have h0 : labelHour (({} : Criteria).timeRange.1) = some 0 := rfl
    have h23 : labelHour (({} : Criteria).timeRange.2) = some 23 := rfl
    rw [h0, h23]
    simp [hle]
  unfold filterBucket
  rw [htm]
  simp only [Bool.not_true, Bool.false_eq_true, if_false]
  have hfe : b.entries.filter (entryPasses {}) = b.entries := by
    have : ∀ e ∈ b.entries, entryPasses {} e = true := fun e _ => entryPasses_empty e
    rw [List.filter_congr this, List.filter_true]
  rw [hfe, ← hc]

/-- C4: applying the Filter Engine with all three selection sets empty,
both date bounds empty and the full-day time range 00:00–23:59 (the
default `Criteria`) returns the bucket list unchanged — same counts,
same entries in the same order — on any bucket list whose buckets carry
a parseable hour label in [0,23] and a count equal to their number of
entries (the Hour Bucket data-model invariants). -/
theorem empty_filter_identity (hd : List HourlyData)
    (hwf : ∀ b ∈ hd, b.count = b.entries.length ∧
      ∃ h, labelHour b.hour = some h ∧ h ≤ 23) :
    filteredData {} hd = hd := by
  induction hd with
  | nil => rfl
  | cons b bs ih =>
    have hb := hwf b (by simp)
    have hbs : ∀ x ∈ bs, x.count = x.entries.length ∧
        ∃ h, labelHour x.hour = some h ∧ h ≤ 23 :=
      fun x hx => hwf x (by simp [hx])
    show filterBucket {} b :: filteredData {} bs = b :: bs
    rw [filterBucket_empty_id b hb.1 hb.2, ih hbs]

/-- Witness for C4: the identity holds on the 24 buckets built from two
sample rows. -/
theorem empty_filter_identity_witness :
    filteredData {}
        (processTimestamps [{ time := some "09:15 AM", modality := some "CT" },
          { date := some "01/02/2024", time := some "14:00" }]).1 =
      (processTimestamps [{ time := some "09:15 AM", modality := some "CT" },
        { date := some "01/02/2024", time := some "14:00" }]).1 :=
  empty_filter_identity _ (by decide)

/-! C5. -/

/-- C5: for every Filter Criteria, the sum of the filtered buckets'
counts equals the number of records across the input buckets that
satisfy all the filter predicates (time range at bucket-hour
granularity, the categorical dimensions and the date range), and every
filtered bucket's count equals the length of its entries list —
filtering never loses or duplicates a record. -/
theorem filter_conservation (c : Criteria) (hd : List HourlyData) :
    ((filteredData c hd).map (fun b => b.count)).sum =
      ((hd.map (fun b => b.entries.filter (passesAll c b.hour))).flatten).length ∧
    (filteredData c hd).all (fun b => b.count == b.entries.length) = true := by
  induction hd with
  | nil => exact ⟨rfl, rfl⟩
  | cons b bs ih =>
    have ih1 := ih.1
    have ih2 := ih.2
    simp only [filteredData, List.map_cons, List.sum_cons, List.flatten_cons,
      List.length_append, List.all_cons] at ih1 ih2 ⊢
    constructor
    · rw [filterBucket_count_eq, ih1]
    · rw [ih2, filterBucket_count_entries]
      simp

/-! C2. -/

/-- The rejection gate of `processTimestamps` for one row: the time
field is absent, or trims to the empty string, or contains no time
pattern, or the adjusted hour falls outside [0,23]. -/
def rowRejected (row : Row) : Bool :=
  match row.time with
  | Option.none => true
  | some t =>
    let timeStr := jsTrim t
    if timeStr = "" then true
    else
      match extractTimeFromString timeStr with
      | Option.none => true
      | some ti => decide (ti.hour > 23)

theorem normalizeRow_none_of_rejected (row : Row) (h : rowRejected row = true) :
    normalizeRow row = Option.none := by
  unfold rowRejected at h
  unfold normalizeRow
  cases ht : row.time with
  | none => rfl
  | some t =>
    rw [ht] at h
    simp only at h ⊢
    by_cases he : jsTrim t = ""
    · rw [if_pos he]
    · rw [if_neg he] at h ⊢
      cases hx : extractTimeFromString (jsTrim t) with
      | none => rfl
      | some ti =>
        rw [hx] at h
        simp only [decide_eq_true_eq] at h
        simp [h]

/-- C2: a row whose time field is absent or empty, or whose time string
contains no `digit{1,2}:digit{2}` pattern anywhere, or whose adjusted
hour falls outside [0,23], contributes nothing: removing it from the
input leaves the buckets and the valid-entry total of
`processTimestamps` unchanged, and the surrounding rows are still
ingested. -/
theorem unparseable_rows_skipped (pre post : List Row) (row : Row)
    (h : rowRejected row = true) :
    processTimestamps (pre ++ row :: post) = processTimestamps (pre ++ post) := by
  have hnone := normalizeRow_none_of_rejected row h
  unfold processTimestamps
  rw [List.filterMap_append, List.filterMap_cons_none hnone, ← List.filterMap_append]

/-- Witness for C2: dropping a row with an unparseable time string from
between two parseable rows does not change the result. -/
theorem unparseable_rows_skipped_witness :
    processTimestamps
        ([{ time := some "09:15 AM" }] ++ ({ time := some "half past nine" } : Row) ::
          [{ time := some "14:00" }]) =
      processTimestamps ([{ time := some "09:15 AM" }] ++ [{ time := some "14:00" }]) :=
  unparseable_rows_skipped _ _ _ (by decide)

/-! C3. -/

theorem sum_map_add_nat {α : Type} (f g : α → Nat) (l : List α) :
    (l.map (fun x => f x + g x)).sum = (l.map f).sum + (l.map g).sum := by
  induction l with
  | nil => rfl
  | cons x xs ih =>
    simp only [List.map_cons, List.sum_cons, ih]
    omega

theorem indicator_sum_zero (n k : Nat) (h : n ≤ k) :
    ((List.range n).map (fun x => if k = x then 1 else 0)).sum = 0 := by
  induction n with
  | zero => rfl
  | succ n ih =>
    rw [List.range_succ]
    simp only [List.map_append, List.sum_append, List.map_cons, List.map_nil,
      List.sum_cons, List.sum_nil]
    rw [ih (by omega), if_neg (by omega)]
    omega

theorem indicator_sum_one (n k : Nat) (h : k < n) :
    ((List.range n).map (fun x => if k = x then 1 else 0)).sum = 1 := by
  induction n with
  | zero => omega
  | succ n ih =>
    rw [List.range_succ]
    simp only [List.map_append, List.sum_append, List.map_cons, List.map_nil,
      List.sum_cons, List.sum_nil]
    by_cases hk : k = n
    · subst hk
      rw [indicator_sum_zero _ _ (Nat.le_refl k), if_pos rfl]
      omega
    · rw [ih (by omega), if_neg hk]
      omega

theorem count_partition (n : Nat) (recs : List (Nat × EntryDetail))
    (hall : ∀ r ∈ recs, r.1 < n) :
    ((List.range n).map (fun h => ((recs.filter (fun r => r.1 == h)).length))).sum =
      recs.length := by
  induction recs with
  | nil => simp
  | cons r rs ih =>
    have hr : r.1 < n := hall r (by simp)
    have hrs : ∀ x ∈ rs, x.1 < n := fun x hx => hall x (by simp [hx])
    have hstep : ∀ h ∈ List.range n, ((r :: rs).filter (fun x => x.1 == h)).length =
        (if r.1 = h then 1 else 0) + (rs.filter (fun x => x.1 == h)).length := by
      intro h _
      by_cases hh : r.1 = h
      · simp [List.filter_cons, hh]
        omega
      · simp [List.filter_cons, hh]
    rw [List.map_congr_left hstep, sum_map_add_nat, indicator_sum_one n r.1 hr, ih hrs]
    simp [Nat.add_comm]

theorem length_insertTS (e : EntryDetail) (l : List EntryDetail) :
    (insertTS e l).length = l.length + 1 := by
  induction l with
  | nil => rfl
  | cons x xs ih =>
    unfold insertTS
    split
    · rfl
    · simp [ih]

theorem length_sortTS (l : List EntryDetail) : (sortTS l).length = l.length := by
  induction l with
  | nil => rfl
  | cons x xs ih =>
    show (insertTS x (sortTS xs)).length = xs.length + 1
    rw [length_insertTS, ih]

theorem normalizeRow_hour_lt (row : Row) (p : Nat × EntryDetail)
    (h : normalizeRow row = some p) : p.1 < 24 := by
  unfold normalizeRow at h
  cases ht : row.time with
  | none => rw [ht] at h; exact absurd h (by simp)
  | some t =>
    rw [ht] at h
    simp only at h
    by_cases he : jsTrim t = ""
    · rw [if_pos he] at h
      exact absurd h (by simp)
    · rw [if_neg he] at h
      cases hx : extractTimeFromString (jsTrim t) with
      | none => rw [hx] at h; exact absurd h (by simp)
      | some ti =>
        rw [hx] at h
        simp only at h
        by_cases hh : ti.hour > 23
        · rw [if_pos hh] at h
          exact absurd h (by simp)
        · rw [if_neg hh] at h
          simp only [Option.some.injEq] at h
          subst h
          omega

/-- C3: after `processTimestamps`, the sum of `count` over the 24
buckets equals the valid-entry scalar (the number of rows yielding a
Study Record), and so does the total number of entries stored across
the buckets — before any filtering. -/
theorem bucket_counts_total_invariant (rows : List Row) :
    (((processTimestamps rows).1).map (fun b => b.count)).sum =
      (processTimestamps rows).2 ∧
    (((processTimestamps rows).1).map (fun b => b.entries.length)).sum =
      (processTimestamps rows).2 := by
  unfold processTimestamps
  simp only [List.map_map, Function.comp_def, length_sortTS, List.length_map]
  have hall : ∀ r ∈ rows.filterMap normalizeRow, r.1 < 24 := by
    intro r hr
    obtain ⟨row, _, hnr⟩ := List.mem_filterMap.mp hr
    exact normalizeRow_hour_lt row r hnr
  exact ⟨count_partition 24 _ hall, count_partition 24 _ hall⟩

/-! C6. -/

theorem peakBucket_snoc (l : List HourlyData) (b : HourlyData) :
    peakBucket (l ++ [b]) = some (match peakBucket l with
      | Option.none => b
      | some mx => if mx.count < b.count then b else mx) := by
  cases l with
  | nil => rfl
  | cons x xs =>
    show peakBucket (x :: (xs ++ [b])) = _
    simp only [peakBucket, List.foldl_append, List.foldl_cons, List.foldl_nil]

theorem peak_cons (x : HourlyData) (xs : List HourlyData) :
    ∃ p l1 l2, peakBucket (x :: xs) = some p ∧ x :: xs = l1 ++ p :: l2 ∧
      (∀ b ∈ l1, b.count < p.count) ∧ (∀ b ∈ l2, b.count ≤ p.count) := by
  induction xs using List.reverseRecOn with
  | nil => exact ⟨x, [], [], rfl, rfl, by simp, by simp⟩
  | append_singleton xs b ih =>
    obtain ⟨p, l1, l2, hpk, hsplit, h1, h2⟩ := ih
    have hsnoc : peakBucket (x :: (xs ++ [b])) =
        some (if p.count < b.count then b else p) := by
      rw [show x :: (xs ++ [b]) = (x :: xs) ++ [b] from rfl, peakBucket_snoc, hpk]
    by_cases hcmp : p.count < b.count
    · refine ⟨b, x :: xs, [], ?_, by simp, ?_, by simp⟩
      · rw [hsnoc, if_pos hcmp]
      · intro y hy
        rw [hsplit] at hy
        rcases List.mem_append.mp hy with hy1 | hy2
        · exact lt_trans (h1 y hy1) hcmp
        · rcases List.mem_cons.mp hy2 with rfl | hy3
          · exact hcmp
          · exact lt_of_le_of_lt (h2 y hy3) hcmp
    · refine ⟨p, l1, l2 ++ [b], ?_, ?_, h1, ?_⟩
      · rw [hsnoc, if_neg hcmp]
      · rw [show x :: (xs ++ [b]) = (x :: xs) ++ [b] from rfl, hsplit]
        simp
      · intro y hy
        rcases List.mem_append.mp hy with hy1 | hy2
        · exact h2 y hy1
        · rw [List.mem_singleton.mp hy2]
          exact le_of_not_lt hcmp

/-- C6: on a non-empty bucket list the peak-hour reduce returns the
bucket at the earliest position attaining the maximal count: every
earlier bucket has a strictly smaller count and every later bucket has
a smaller-or-equal count, so ties resolve to the lowest-numbered hour. -/
theorem peak_hour_first_max (hd : List HourlyData) (hne : hd ≠ []) :
    ∃ p l1 l2, peakBucket hd = some p ∧ hd = l1 ++ p :: l2 ∧
      (∀ b ∈ l1, b.count < p.count) ∧ (∀ b ∈ l2, b.count ≤ p.count) := by
  cases hd with
  | nil => exact absurd rfl hne
  | cons x xs => exact peak_cons x xs

/-- Witness for C6 at the spec's tie-break example: counts 5, 5, 3 at
hours 0, 1, 2 — the scan characterization applies, and the selected
peak bucket is the hour-0 bucket. -/
theorem peak_hour_first_max_witness :
    (∃ p l1 l2,
      peakBucket (filteredData {} (processTimestamps
        [{ time := some "00:05" }, { time := some "00:10" }, { time := some "00:15" },
         { time := some "00:20" }, { time := some "00:25" },
         { time := some "01:05" }, { time := some "01:10" }, { time := some "01:15" },
         { time := some "01:20" }, { time := some "01:25" },
         { time := some "02:05" }, { time := some "02:10" }, { time := some "02:15" }]).1)
        = some p ∧
      filteredData {} (processTimestamps
        [{ time := some "00:05" }, { time := some "00:10" }, { time := some "00:15" },
         { time := some "00:20" }, { time := some "00:25" },
         { time := some "01:05" }, { time := some "01:10" }, { time := some "01:15" },
         { time := some "01:20" }, { time := some "01:25" },
         { time := some "02:05" }, { time := some "02:10" }, { time := some "02:15" }]).1
        = l1 ++ p :: l2 ∧
      (∀ b ∈ l1, b.count < p.count) ∧ (∀ b ∈ l2, b.count ≤ p.count)) ∧
    (peakBucket (filteredData {} (processTimestamps
        [{ time := some "00:05" }, { time := some "00:10" }, { time := some "00:15" },
         { time := some "00:20" }, { time := some "00:25" },
         { time := some "01:05" }, { time := some "01:10" }, { time := some "01:15" },
         { time := some "01:20" }, { time := some "01:25" },
         { time := some "02:05" }, { time := some "02:10" }, { time := some "02:15" }]).1)).map
      (fun b => (b.hour, b.count)) = some ("00:00", 5) :=
  ⟨peak_hour_first_max _ (by decide), by decide⟩

/-! C7. -/

/-- One ingested CT study at 09:15 AM, used as concrete data for C7. -/
def exRowCT : Row :=
  { date := some "01/01/2024", time := some "09:15 AM", modality := some "CT" }

/-- A Filter Criteria selecting only modality "MR", which no ingested
record matches. -/
def exCritMR : Criteria := { selectedModalities := ["MR"] }

/-- Counterexample to C7 as stated: ingest one CT study at 09:15 and
select only modality "MR" — no record passes the filters (the filtered
record count is 0), yet the peak-hour result is the hour-0 bucket's
label "00:00", not the explicit no-data value "N/A". -/
theorem peak_hour_empty_counterexample :
    (((filteredData exCritMR (processTimestamps [exRowCT]).1).map
        (fun b => b.count)).sum = 0) ∧
    peakHourDisplay (filteredData exCritMR (processTimestamps [exRowCT]).1) = "00:00" ∧
    ("00:00" : String) ≠ "N/A" := by decide

theorem foldl_peak_zero (xs : List HourlyData) (x : HourlyData)
    (hxs : ∀ b ∈ xs, b.count = 0) (hx : x.count = 0) :
    xs.foldl (fun mx cur => if mx.count < cur.count then cur else mx) x = x := by
  induction xs generalizing x with
  | nil => rfl
  | cons y ys ih =>
    have hy : y.count = 0 := hxs y (by simp)
    have hys : ∀ b ∈ ys, b.count = 0 := fun b hb => hxs b (by simp [hb])
    show ys.foldl _ (if x.count < y.count then y else x) = x
    rw [hx, hy]
    simp only [lt_self_iff_false, if_false]
    exact ih x hys hx

/-- C7 amended: the explicit "N/A" no-data value is produced only when
the bucket list itself is empty (nothing ingested); when buckets exist
but no record passes the filters (every bucket count is 0), the
peak-hour result is the first bucket's label (hour 0) — still never an
out-of-bounds bucket reference, but the label of a zero-count bucket
rather than a no-data value. -/
theorem peak_hour_empty_amended :
    peakHourDisplay [] = "N/A" ∧
    ∀ (hd : List HourlyData), (∀ b ∈ hd, b.count = 0) →
      (peakBucket hd).map (fun b => b.hour) = hd.head?.map (fun b => b.hour) := by
  refine ⟨rfl, ?_⟩
  intro hd hz
  cases hd with
  | nil => rfl
  | cons x xs =>
    have hx : x.count = 0 := hz x (by simp)
    have hxs : ∀ b ∈ xs, b.count = 0 := fun b hb => hz b (by simp [hb])
    show (some (xs.foldl _ x)).map (fun b => b.hour) = (some x).map (fun b => b.hour)
    rw [foldl_peak_zero xs x hxs hx]

/-- Witness for C7's amended statement at the counterexample's data:
all 24 filtered buckets have count 0 and the peak bucket is the head
(hour-0) bucket. -/
theorem peak_hour_empty_amended_witness :
    (peakBucket (filteredData exCritMR (processTimestamps [exRowCT]).1)).map
        (fun b => b.hour) =
      ((filteredData exCritMR (processTimestamps [exRowCT]).1).head?).map
        (fun b => b.hour) :=
  peak_hour_empty_amended.2 _ (by decide)

/-! C8. -/

/-- Counterexample to C8 as stated: with bounds 2024-01-02 to
2024-01-03 (the format the date inputs produce) and record date
01/01/2024, the code parses the bounds with the year-month-day pattern
and excludes the record as strictly before the start, while the claim's
all-month/day/year reading fails to parse the bounds and must let the
record pass. -/
theorem prod_date_filter_counterexample :
    prodDateOK { dateRange := ("2024-01-02", "2024-01-03") } (some "01/01/2024") = false ∧
    claimC8DatePass "2024-01-02" "2024-01-03" (some "01/01/2024") = true := by decide

/-- C8 amended: the productivity view's date filter parses the two
bounds with a fixed year-month-day pattern and the record's date with a
fixed month/day/year pattern, compares them as calendar dates, and with
both bounds non-empty excludes a record exactly when all three dates
parse and its date lies strictly before the start or strictly after the
end; whenever any of the three fails to parse, the record passes
(permissive fallback, not an error). -/
theorem prod_date_filter_amended (ds de d : String)
    (hds : ds ≠ "") (hde : de ≠ "") (hd : d ≠ "") :
    prodDateOK { dateRange := (ds, de) } (some d) = false ↔
      ∃ s e cur, parseYMD ds = some s ∧ parseYMD de = some e ∧ parseMDY d = some cur ∧
        (dateKey cur < dateKey s ∨ dateKey e < dateKey cur) := by
  unfold prodDateOK
  simp only [Option.getD_some]
  have h1 : (ds == "") = false := by simpa using hds
  have h2 : (de == "") = false := by simpa using hde
  have h3 : (d == "") = false := by simpa using hd
  rw [h1, h2, h3]
  simp only [Bool.false_or, Bool.false_eq_true, if_false]
  cases hys : parseYMD ds with
  | none => simp [hys]
  | some s =>
    cases hye : parseYMD de with
    | none => simp [hys, hye]
    | some e =>
      cases hmd : parseMDY d with
      | none => simp [hys, hye, hmd]
      | some cur =>
        simp [hys, hye, hmd]
        omega

/-- Witness for C8's amended statement at concrete inputs: bounds
2024-01-02 and 2024-01-03 with record date 01/01/2024, excluded because
its date is strictly before the start. -/
theorem prod_date_filter_amended_witness :
    prodDateOK { dateRange := ("2024-01-02", "2024-01-03") } (some "01/01/2024") = false ↔
      ∃ s e cur, parseYMD "2024-01-02" = some s ∧ parseYMD "2024-01-03" = some e ∧
        parseMDY "01/01/2024" = some cur ∧
        (dateKey cur < dateKey s ∨ dateKey e < dateKey cur) :=
  prod_date_filter_amended "2024-01-02" "2024-01-03" "01/01/2024"
    (by decide) (by decide) (by decide)

/-! C9. -/

theorem mem_insertDesc (x y : ModalityData) (l : List ModalityData)
    (h : y ∈ insertDesc x l) : y = x ∨ y ∈ l := by
  induction l with
  | nil => simpa [insertDesc] using h
  | cons z zs ih =>
    unfold insertDesc at h
    split at h
    · rcases List.mem_cons.mp h with rfl | hy
      · exact Or.inl rfl
      · exact Or.inr hy
    · rcases List.mem_cons.mp h with rfl | hy
      · exact Or.inr (by simp)
      · rcases ih hy with rfl | hz
        · exact Or.inl rfl
        · exact Or.inr (by simp [hz])

theorem mem_foldl_insertDesc (l : List ModalityData) :
    ∀ (acc : List ModalityData) (y : ModalityData),
      y ∈ l.foldl (fun a x => insertDesc x a) acc → y ∈ acc ∨ y ∈ l := by
  induction l with
  | nil => intro acc y h; exact Or.inl h
  | cons x xs ih =>
    intro acc y h
    rcases ih (insertDesc x acc) y h with hacc | hxs
    · rcases mem_insertDesc x y acc hacc with rfl | hy
      · exact Or.inr (by simp)
      · exact Or.inl hy
    · exact Or.inr (by simp [hxs])

theorem mem_sortDesc (l : List ModalityData) (y : ModalityData)
    (h : y ∈ sortDesc l) : y ∈ l := by
  rcases mem_foldl_insertDesc l [] y h with hacc | hl
  · simp at hacc
  · exact hl

/-- C9: every Modality Aggregate emitted by the productivity view's
`processData` carries a percentage equal to its count divided by the
grand total of filtered records times 100 when that total is positive,
and exactly 0 when the total is 0 — the zero-total case is guarded, not
an unguarded division. (Stated over the option so the aborted-batch
case is vacuous.) -/
theorem modality_percentage_guarded (c : Criteria) (rows : List Row) :
    ((processData c rows).map (fun o => o.modalityData.all (fun md =>
      if 0 < o.totalStudies then
        md.percentage == (md.count : ℚ) / (o.totalStudies : ℚ) * 100
      else md.percentage == 0))).getD true = true := by
  unfold processData
  cases h : rows.mapM (fun r => (prodRowPasses c r).map (fun b => (r, b))) with
  | none => rfl
  | some pairs =>
    simp only [Option.map_some', Option.getD_some]
    rw [List.all_eq_true]
    intro md hmd
    have hmem := mem_sortDesc _ md hmd
    obtain ⟨p, _, hpe⟩ := List.mem_map.mp hmem
    subst hpe
    by_cases ht : 0 < ((pairs.filter (fun p => p.2)).map Prod.fst).length
    · simp only [ht, if_true, beq_self_eq_true]
    · simp only [ht, if_false, beq_self_eq_true]

end Radiology
